import Mathlib

/-!
Verification of the attendance/overtime core of the `lbpfix-mysql` repository.

The embedding models the state-machine logic of `src/lib/data-store.ts`
(`checkIn`, `checkOut`, `startOvertime`, `endOvertime`, `approveOvertime`,
`getAttendanceStats`) and of the API route handlers
(`src/app/api/attendance/route.ts` POST, the overtime route POST/PUT).
Stateful storage becomes explicit list passing; the clock, the schedule rows
and the generated ids are injected parameters (the source obtains them from
`Date`, `localStorage`/MySQL and `Date.now()`); the
record-or-`{error}` return shape becomes `Except StoreError`.
-/

namespace Presensi

/-- Decidable equality of results, so that concrete runs of the operations
can be checked by evaluation. -/
instance {ε α : Type} [DecidableEq ε] [DecidableEq α] : DecidableEq (Except ε α) :=
  fun a b =>
    match a, b with
    | .error e, .error f =>
      if h : e = f then .isTrue (by rw [h]) else .isFalse (by simp [h])
    | .error _, .ok _ => .isFalse (by simp)
    | .ok _, .error _ => .isFalse (by simp)
    | .ok x, .ok y =>
      if h : x = y then .isTrue (by rw [h]) else .isFalse (by simp [h])

/-- Time of day at minute resolution, the parsed form of an `"HH:MM"` string
(`now.toTimeString().slice(0, 5)` and the parse `split(':').map(Number)`). -/
structure Time where
  hour : Nat
  minute : Nat
deriving DecidableEq

/-- `checkInTime[0] * 60 + checkInTime[1]` — minute of day, as computed at
`data-store.ts` lines 290-293 and `attendance/route.ts` lines 226-229. -/
def Time.toMinutes (t : Time) : Nat := t.hour * 60 + t.minute

/-- The comparison `timeString > schedule.startTime` performed on zero-padded
`"HH:MM"` strings (`data-store.ts` line 240, `attendance/route.ts` line 167):
lexicographic on (hour, minute), which is exactly the string order for
two-digit zero-padded fields. -/
def Time.lexGt (a b : Time) : Bool :=
  b.hour < a.hour || (a.hour == b.hour && b.minute < a.minute)

/-- Geolocation payload `{ latitude, longitude, address }`. -/
structure Location where
  latitude : ℚ
  longitude : ℚ
  address : String
deriving DecidableEq

/-- A check-in or check-out event `{ time, photo, location }`. -/
structure CheckEvent where
  time : Time
  photo : String
  location : Location
deriving DecidableEq

/-- `status ENUM('present', 'late', 'absent', 'holiday')`. -/
inductive AttStatus
  | present
  | late
  | absent
  | holiday
deriving DecidableEq

/-- An attendance row (`AttendanceRecord` in `types`, `attendance_records` in
the schema). The dead `overtime` field of the TS type (always `null`) is
omitted. -/
structure AttendanceRecord where
  id : String
  userId : String
  date : String
  checkIn : Option CheckEvent
  checkOut : Option CheckEvent
  status : AttStatus
  workHours : ℚ
deriving DecidableEq

/-- A `work_schedules` row: `{ dayOfWeek, startTime, endTime, minWorkHours }`. -/
structure WorkSchedule where
  dayOfWeek : Nat
  startTime : Time
  endTime : Time
  minWorkHours : ℚ
deriving DecidableEq

/-- `status ENUM('pending', 'approved', 'rejected')`. -/
inductive OvertimeStatus
  | pending
  | approved
  | rejected
deriving DecidableEq

/-- An `overtime_records` row (`OvertimeRecord` in `types`). -/
structure OvertimeRecord where
  id : String
  userId : String
  date : String
  startTime : Time
  endTime : Option Time
  duration : ℚ
  reason : String
  status : OvertimeStatus
  approvedBy : Option String
deriving DecidableEq

/-- The typed failures of the core, one per distinct `{ error: ... }` return
(taxonomy of section 7 of the spec). `minimumHoursNotMet` carries the
`hours`/`minutes` numbers computed for the check-out message
(`data-store.ts` lines 302-308); `minimumHoursNotMetOvertime` carries the
minimum rendered in the overtime message. -/
inductive StoreError
  | alreadyCheckedIn
  | notCheckedIn
  | alreadyCheckedOut
  | minimumHoursNotMet (hours minutes : Int)
  | minimumHoursNotMetOvertime (minHours : ℚ)
  | reasonRequired
  | checkInRequired
  | checkOutRequired
  | overtimeAlreadyOpen
  | noOpenOvertime
  | recordNotFound
deriving DecidableEq

/-- `records[records.findIndex(pred)] = x`: replace the first element
satisfying `p` (the in-place update at `data-store.ts` lines 261-262,
321-322, 408-409, 429-430). -/
def replaceFirst {α : Type} (p : α → Bool) (x : α) : List α → List α
  | [] => []
  | a :: as => if p a then x :: as else a :: replaceFirst p x as

/-- The lookup predicate `a.userId === userId && a.date === today`
(`data-store.ts` lines 231, 281). -/
def attKey (userId today : String) (a : AttendanceRecord) : Bool :=
  a.userId == userId && a.date == today

/-- The open-overtime lookup predicate
`o.userId === userId && o.date === today && !o.endTime`
(`data-store.ts` lines 360-361, 388-389; route `... AND end_time IS NULL`). -/
def otOpenKey (userId today : String) (o : OvertimeRecord) : Bool :=
  o.userId == userId && o.date == today && o.endTime.isNone

/-- `workHours = (checkOutMinutes - checkInMinutes) / 60`
(`data-store.ts` line 294; also the overtime `duration` formula at line 403):
a signed real division, no cross-midnight adjustment. -/
def computedWorkHours (checkInT checkOutT : Time) : ℚ :=
  (((checkOutT.toMinutes : Int) - (checkInT.toMinutes : Int) : Int) : ℚ) / 60

/-- `remainingMinutes = Math.ceil((schedule.minWorkHours - workHours) * 60)`
(`data-store.ts` line 303). -/
def remainingMinutes (minWorkHours workHours : ℚ) : Int :=
  ⌈(minWorkHours - workHours) * 60⌉

/-- `hours = Math.floor(remainingMinutes / 60); minutes = remainingMinutes % 60`
(`data-store.ts` lines 304-305). On the reachable branch `remainingMinutes`
is positive, where `Int` division and `emod` agree with the JS operations. -/
def remainingSplit (minWorkHours workHours : ℚ) : Int × Int :=
  (remainingMinutes minWorkHours workHours / 60,
   remainingMinutes minWorkHours workHours % 60)

/-- `checkIn` of `data-store.ts` lines 220-269 (the same logic as the
`check-in` action of `attendance/route.ts` lines 152-201). `today`,
`timeString` and `freshId` are the injected clock and id generator; `schedule`
is the resolved row for the weekday of `today`. -/
def checkIn (records : List AttendanceRecord) (userId today : String)
    (timeString : Time) (schedule : WorkSchedule) (photo : String)
    (location : Location) (freshId : String) :
    Except StoreError (List AttendanceRecord × AttendanceRecord) :=
  match records.find? (attKey userId today) with
  | some existing =>
    if existing.checkIn.isSome then
      .error .alreadyCheckedIn
    else
      let isLate := Time.lexGt timeString schedule.startTime
      let record := { existing with
        checkIn := some { time := timeString, photo := photo, location := location }
        status := if isLate then AttStatus.late else AttStatus.present }
      .ok (replaceFirst (fun a => a.id == existing.id) record records, record)
  | none =>
    let isLate := Time.lexGt timeString schedule.startTime
    let record : AttendanceRecord := {
      id := freshId
      userId := userId
      date := today
      checkIn := some { time := timeString, photo := photo, location := location }
      checkOut := none
      status := if isLate then AttStatus.late else AttStatus.present
      workHours := 0 }
    .ok (records ++ [record], record)

/-- `checkOut` of `data-store.ts` lines 271-325 (the same logic as the
`check-out` action of `attendance/route.ts` lines 204-267). -/
def checkOut (records : List AttendanceRecord) (userId today : String)
    (timeString : Time) (schedule : WorkSchedule) (photo : String)
    (location : Location) :
    Except StoreError (List AttendanceRecord × AttendanceRecord) :=
  match records.find? (attKey userId today) with
  | none => .error .notCheckedIn
  | some existing =>
    match existing.checkIn with
    | none => .error .notCheckedIn
    | some ci =>
      if existing.checkOut.isSome then
        .error .alreadyCheckedOut
      else
        let workHours := computedWorkHours ci.time timeString
        if workHours < schedule.minWorkHours then
          .error (.minimumHoursNotMet
            (remainingSplit schedule.minWorkHours workHours).1
            (remainingSplit schedule.minWorkHours workHours).2)
        else
          let record := { existing with
            checkOut := some { time := timeString, photo := photo, location := location }
            workHours := max 0 workHours }
          .ok (replaceFirst (fun a => a.id == existing.id) record records, record)

/-- JavaScript `schedule?.min_work_hours || 8` (overtime route, line 147):
the default applies when the lookup returned no row, and also when the stored
minimum is the falsy number `0`. -/
def resolvedMinWorkHours (schedule : Option WorkSchedule) : ℚ :=
  match schedule with
  | none => 8
  | some s => if s.minWorkHours = 0 then 8 else s.minWorkHours

/-- The start-overtime POST of the overtime route (`src/unnamed/part_002`
lines 95-192; `data-store.ts` lines 336-383 is the same flow with the
schedule row indexed instead of defaulted). `attendance` is the
`attendance_records` row fetched for `(userId, today)`; `schedule` the
`work_schedules` row for the weekday of `today`. -/
def startOvertime (overtimes : List OvertimeRecord)
    (attendance : Option AttendanceRecord) (schedule : Option WorkSchedule)
    (userId today : String) (timeString : Time) (reason : String)
    (freshId : String) :
    Except StoreError (List OvertimeRecord × OvertimeRecord) :=
  if reason = "" then .error .reasonRequired
  else
    match attendance with
    | none => .error .checkInRequired
    | some att =>
      if att.checkIn.isNone then .error .checkInRequired
      else if att.checkOut.isNone then .error .checkOutRequired
      else if att.workHours < resolvedMinWorkHours schedule then
        .error (.minimumHoursNotMetOvertime (resolvedMinWorkHours schedule))
      else
        match overtimes.find? (otOpenKey userId today) with
        | some _ => .error .overtimeAlreadyOpen
        | none =>
          let overtime : OvertimeRecord := {
            id := freshId
            userId := userId
            date := today
            startTime := timeString
            endTime := none
            duration := 0
            reason := reason
            status := OvertimeStatus.pending
            approvedBy := none }
          .ok (overtimes ++ [overtime], overtime)

/-- `endOvertime` of `data-store.ts` lines 385-412 (the `end` action of the
overtime route PUT, lines 209-247): closes the open record of
`(userId, today)`, setting `endTime` and
`duration = Math.max(0, (endMinutes - startMinutes) / 60)`. -/
def endOvertime (overtimes : List OvertimeRecord) (userId today : String)
    (endTime : Time) :
    Except StoreError (List OvertimeRecord × OvertimeRecord) :=
  match overtimes.find? (otOpenKey userId today) with
  | none => .error .noOpenOvertime
  | some overtime =>
    let record := { overtime with
      endTime := some endTime
      duration := max 0 (computedWorkHours overtime.startTime endTime) }
    .ok (replaceFirst (fun o => o.id == overtime.id) record overtimes, record)

/-- `approveOvertime` of `data-store.ts` lines 414-433 (the `approve`/`reject`
actions of the overtime route PUT, lines 249-289, which additionally guard on
the admin role before reaching this logic): sets `status` and `approvedBy`
on the record with the given id, unconditionally on its current state. -/
def approveOvertime (overtimes : List OvertimeRecord) (overtimeId : String)
    (adminId : String) (approved : Bool) :
    Except StoreError (List OvertimeRecord × OvertimeRecord) :=
  match overtimes.find? (fun o => o.id == overtimeId) with
  | none => .error .recordNotFound
  | some overtime =>
    let record := { overtime with
      status := if approved then OvertimeStatus.approved else OvertimeStatus.rejected
      approvedBy := some adminId }
    .ok (replaceFirst (fun o => o.id == overtimeId) record overtimes, record)

/-- Split a character list on the `-` separator (helper for reading the
`"YYYY-MM-DD"` date strings the store writes via `toISOString`). -/
def splitOnDash : List Char → List (List Char)
  | [] => [[]]
  | c :: cs =>
    let rest := splitOnDash cs
    if c = '-' then [] :: rest
    else (c :: rest.headD []) :: rest.tail

/-- Read a decimal digit group. -/
def charsToNat (cs : List Char) : Nat :=
  cs.foldl (fun n c => n * 10 + (c.toNat - 48)) 0

/-- `new Date(a.date).getFullYear()` for the stored `"YYYY-MM-DD"` strings. -/
def dateYear (date : String) : Nat :=
  charsToNat ((splitOnDash date.toList).headD [])

/-- `new Date(a.date).getMonth()` for the stored `"YYYY-MM-DD"` strings:
zero-based month index (January = 0). -/
def dateMonthIndex (date : String) : Nat :=
  charsToNat ((splitOnDash date.toList).getD 1 []) - 1

/-- The two filters of `getAttendanceStats` (`data-store.ts` lines 445-453):
restrict to the given user when one is given, then to the rows whose date has
the target (zero-based) month and the target year. -/
def statsFiltered (records : List AttendanceRecord) (userId : Option String)
    (targetMonth targetYear : Nat) : List AttendanceRecord :=
  let byUser : List AttendanceRecord := match userId with
    | some uid => records.filter (fun a => a.userId == uid)
    | none => records
  byUser.filter (fun a =>
    dateMonthIndex a.date == targetMonth && dateYear a.date == targetYear)

/-- The result shape of `getAttendanceStats`. -/
structure AttendanceStats where
  present : Nat
  late : Nat
  absent : Nat
  totalWorkHours : ℚ
  total : Nat
deriving DecidableEq

/-- `getAttendanceStats` of `data-store.ts` lines 436-461. The caller resolves
the defaulted month/year from the clock; here they arrive resolved. -/
def getAttendanceStats (records : List AttendanceRecord)
    (userId : Option String) (targetMonth targetYear : Nat) : AttendanceStats :=
  let rs := statsFiltered records userId targetMonth targetYear
  { present := (rs.filter (fun a => decide (a.status = AttStatus.present))).length
    late := (rs.filter (fun a => decide (a.status = AttStatus.late))).length
    absent := (rs.filter (fun a => decide (a.status = AttStatus.absent))).length
    totalWorkHours := rs.foldl (fun sum a => sum + a.workHours) 0
    total := rs.length }

/-- The attendance store observed after a `checkIn` call: the persisted list
on success, the untouched original on failure (the source returns before any
write on every failure path). -/
def checkInStore (records : List AttendanceRecord) (userId today : String)
    (timeString : Time) (schedule : WorkSchedule) (photo : String)
    (location : Location) (freshId : String) : List AttendanceRecord :=
  match checkIn records userId today timeString schedule photo location freshId with
  | .ok (rs, _) => rs
  | .error _ => records

/-- The attendance store observed after a `checkOut` call (see
`checkInStore`). -/
def checkOutStore (records : List AttendanceRecord) (userId today : String)
    (timeString : Time) (schedule : WorkSchedule) (photo : String)
    (location : Location) : List AttendanceRecord :=
  match checkOut records userId today timeString schedule photo location with
  | .ok (rs, _) => rs
  | .error _ => records

/-- The overtime store observed after a `startOvertime` call (see
`checkInStore`). -/
def startOvertimeStore (overtimes : List OvertimeRecord)
    (attendance : Option AttendanceRecord) (schedule : Option WorkSchedule)
    (userId today : String) (timeString : Time) (reason : String)
    (freshId : String) : List OvertimeRecord :=
  match startOvertime overtimes attendance schedule userId today timeString reason freshId with
  | .ok (rs, _) => rs
  | .error _ => overtimes

/-- The storage invariant `UNIQUE KEY unique_user_date (user_id, date)`:
no two rows share (userId, date). -/
abbrev uniquePerUserDate (records : List AttendanceRecord) : Prop :=
  records.Pairwise (fun a b => ¬(a.userId = b.userId ∧ a.date = b.date))

/-- Primary-key uniqueness of attendance row ids. -/
abbrev uniqueIds (records : List AttendanceRecord) : Prop :=
  records.Pairwise (fun a b => a.id ≠ b.id)

/-- Primary-key uniqueness of overtime row ids. -/
abbrev uniqueOtIds (overtimes : List OvertimeRecord) : Prop :=
  overtimes.Pairwise (fun a b => a.id ≠ b.id)

/-- At most one open (no end time) overtime row per (userId, date). -/
abbrev atMostOneOpen (overtimes : List OvertimeRecord) : Prop :=
  overtimes.Pairwise (fun a b =>
    ¬(a.userId = b.userId ∧ a.date = b.date ∧ a.endTime = none ∧ b.endTime = none))

/-- The row as written by a check-in that updates a pre-existing row
(`data-store.ts` lines 253-258 on the `existing` object). -/
def checkInUpdate (existing : AttendanceRecord) (t : Time) (sch : WorkSchedule)
    (photo : String) (loc : Location) : AttendanceRecord :=
  { existing with
    checkIn := some { time := t, photo := photo, location := loc }
    status := if Time.lexGt t sch.startTime then AttStatus.late else AttStatus.present }

/-- The row as created by a first check-in of the day (`data-store.ts` lines
242-258). -/
def checkInFresh (userId today : String) (t : Time) (sch : WorkSchedule)
    (photo : String) (loc : Location) (fid : String) : AttendanceRecord :=
  { id := fid
    userId := userId
    date := today
    checkIn := some { time := t, photo := photo, location := loc }
    checkOut := none
    status := if Time.lexGt t sch.startTime then AttStatus.late else AttStatus.present
    workHours := 0 }

/-- The row as written by a successful check-out (`data-store.ts` lines
314-319). -/
def checkOutUpdate (existing : AttendanceRecord) (t : Time) (photo : String)
    (loc : Location) (wh : ℚ) : AttendanceRecord :=
  { existing with
    checkOut := some { time := t, photo := photo, location := loc }
    workHours := max 0 wh }

/-! ### Sample values for concrete runs -/

/-- A sample geolocation. -/
def locW : Location := ⟨0, 0, "HQ"⟩

/-- The default Monday schedule row: 08:00-16:00, minimum 8 hours. -/
def schW : WorkSchedule := ⟨1, ⟨8, 0⟩, ⟨16, 0⟩, 8⟩

/-- A schedule row whose stored minimum is the falsy number `0`. -/
def schMin0 : WorkSchedule := ⟨1, ⟨8, 0⟩, ⟨16, 0⟩, 0⟩

/-- The attendance row created by a check-in at 08:00 on 2026-01-05. -/
def attW : AttendanceRecord :=
  { id := "att-1", userId := "emp-001", date := "2026-01-05"
    checkIn := some ⟨⟨8, 0⟩, "p", locW⟩, checkOut := none
    status := .present, workHours := 0 }

/-- An attendance row with both events set and 5 worked hours. -/
def attDone5 : AttendanceRecord :=
  { attW with checkOut := some ⟨⟨13, 0⟩, "q", locW⟩, workHours := 5 }

/-- An attendance row with both events set and 8 worked hours. -/
def attDone8 : AttendanceRecord :=
  { attW with checkOut := some ⟨⟨16, 0⟩, "q", locW⟩, workHours := 8 }

/-- An overtime row already approved by an admin. -/
def otApproved : OvertimeRecord :=
  { id := "ot-1", userId := "emp-001", date := "2026-01-05"
    startTime := ⟨17, 0⟩, endTime := some ⟨19, 0⟩, duration := 2
    reason := "maintenance", status := .approved, approvedBy := some "admin-001" }

/-! ### Helper lemmas about `replaceFirst` and `find?` -/

theorem mem_replaceFirst {α : Type} {p : α → Bool} {x b : α} {l : List α}
    (h : b ∈ replaceFirst p x l) : b = x ∨ b ∈ l := by
  induction l with
  | nil => simp [replaceFirst] at h
  | cons a as ih =>
    rw [replaceFirst] at h
    by_cases hpa : p a = true
    · rw [if_pos hpa] at h
      rcases List.mem_cons.mp h with h | h
      · exact .inl h
      · exact .inr (List.mem_cons_of_mem _ h)
    · rw [if_neg hpa] at h
      rcases List.mem_cons.mp h with h | h
      · exact .inr (by simp [h])
      · rcases ih h with h | h
        · exact .inl h
        · exact .inr (List.mem_cons_of_mem _ h)

theorem pairwise_replaceFirst {α : Type} {R : α → α → Prop} (key : α → String)
    {l : List α} {e x : α}
    (hids : l.Pairwise (fun a b => key a ≠ key b))
    (he : e ∈ l)
    (hRx : ∀ a, R a e → R a x)
    (hxR : ∀ a, R e a → R x a)
    (hP : l.Pairwise R) :
    (replaceFirst (fun a => key a == key e) x l).Pairwise R := by
  induction l with
  | nil => simp [replaceFirst]
  | cons a as ih =>
    rw [List.pairwise_cons] at hP hids
    rw [replaceFirst]
    by_cases hk : key a = key e
    · rw [if_pos (by simp [hk])]
      rw [List.pairwise_cons]
      refine ⟨fun b hb => ?_, hP.2⟩
      rcases List.mem_cons.mp he with rfl | hmem
      · exact hxR b (hP.1 b hb)
      · exact absurd hk (hids.1 e hmem)
    · rw [if_neg (by simp [hk])]
      rw [List.pairwise_cons]
      have hmem : e ∈ as := by
        rcases List.mem_cons.mp he with rfl | h
        · exact absurd rfl hk
        · exact h
      refine ⟨fun b hb => ?_, ih hids.2 hmem hP.2⟩
      rcases mem_replaceFirst hb with rfl | hb'
      · exact hRx a (hP.1 e hmem)
      · exact hP.1 b hb'

theorem map_replaceFirst {α β : Type} (f : α → β) (key : α → String)
    {l : List α} {e x : α}
    (hids : l.Pairwise (fun a b => key a ≠ key b))
    (he : e ∈ l) (hf : f x = f e) :
    (replaceFirst (fun a => key a == key e) x l).map f = l.map f := by
  induction l with
  | nil => simp [replaceFirst]
  | cons a as ih =>
    rw [List.pairwise_cons] at hids
    rw [replaceFirst]
    by_cases hk : key a = key e
    · rw [if_pos (by simp [hk])]
      rcases List.mem_cons.mp he with rfl | hmem
      · simp [hf]
      · exact absurd hk (hids.1 e hmem)
    · rw [if_neg (by simp [hk])]
      have hmem : e ∈ as := by
        rcases List.mem_cons.mp he with rfl | h
        · exact absurd rfl hk
        · exact h
      simp [ih hids.2 hmem]

theorem find?_replaceFirst {α : Type} (key : α → String) {q : α → Bool}
    {l : List α} {e x : α}
    (hfind : l.find? q = some e)
    (hids : l.Pairwise (fun a b => key a ≠ key b))
    (hqx : q x = true) :
    (replaceFirst (fun a => key a == key e) x l).find? q = some x := by
  induction l with
  | nil => simp at hfind
  | cons a as ih =>
    rw [List.pairwise_cons] at hids
    by_cases hqa : q a = true
    · rw [List.find?_cons_of_pos _ hqa] at hfind
      injection hfind with he'
      subst he'
      rw [replaceFirst, if_pos (by simp)]
      exact List.find?_cons_of_pos _ hqx
    · rw [List.find?_cons_of_neg _ hqa] at hfind
      have hmem : e ∈ as := List.mem_of_find?_eq_some hfind
      rw [replaceFirst, if_neg (by simp [hids.1 e hmem])]
      rw [List.find?_cons_of_neg _ hqa]
      exact ih hfind hids.2

theorem find?_append_left_none {α : Type} {p : α → Bool} {l₁ l₂ : List α}
    (h : l₁.find? p = none) : (l₁ ++ l₂).find? p = l₂.find? p := by
  induction l₁ with
  | nil => rfl
  | cons a as ih =>
    have hall := List.find?_eq_none.mp h
    have hpa : ¬p a = true := hall a (List.mem_cons_self a as)
    have htail : as.find? p = none :=
      List.find?_eq_none.mpr fun x hx => hall x (List.mem_cons_of_mem _ hx)
    rw [List.cons_append, List.find?_cons_of_neg _ hpa]
    exact ih htail

/-! ### Characterizations of the check-in and check-out runs -/

theorem checkIn_ok_cases
    (records records' : List AttendanceRecord) (rec : AttendanceRecord)
    (userId today : String) (t : Time) (sch : WorkSchedule)
    (photo : String) (loc : Location) (fid : String)
    (hok : checkIn records userId today t sch photo loc fid = .ok (records', rec)) :
    (∃ existing, records.find? (attKey userId today) = some existing ∧
      existing.checkIn.isSome = false ∧
      rec = checkInUpdate existing t sch photo loc ∧
      records' = replaceFirst (fun a => a.id == existing.id) rec records) ∨
    (records.find? (attKey userId today) = none ∧
      rec = checkInFresh userId today t sch photo loc fid ∧
      records' = records ++ [rec]) := by
  unfold checkIn at hok
  split at hok
  · rename_i existing hfind
    split at hok
    · exact absurd hok (by simp)
    · rename_i hci
      simp only [Except.ok.injEq, Prod.mk.injEq] at hok
      exact .inl ⟨existing, hfind, by simpa using hci,
        hok.2.symm.trans rfl, by rw [← hok.1, ← hok.2]⟩
  · rename_i hfind
    simp only [Except.ok.injEq, Prod.mk.injEq] at hok
    exact .inr ⟨hfind, hok.2.symm.trans rfl, by rw [← hok.1, ← hok.2]⟩

theorem checkOut_ok_cases
    (records records' : List AttendanceRecord) (rec : AttendanceRecord)
    (userId today : String) (t : Time) (sch : WorkSchedule)
    (photo : String) (loc : Location)
    (hok : checkOut records userId today t sch photo loc = .ok (records', rec)) :
    ∃ existing ci, records.find? (attKey userId today) = some existing ∧
      existing.checkIn = some ci ∧
      existing.checkOut.isSome = false ∧
      ¬computedWorkHours ci.time t < sch.minWorkHours ∧
      rec = checkOutUpdate existing t photo loc (computedWorkHours ci.time t) ∧
      records' = replaceFirst (fun a => a.id == existing.id) rec records := by
  unfold checkOut at hok
  split at hok
  · exact absurd hok (by simp)
  · rename_i existing hfind
    split at hok
    · exact absurd hok (by simp)
    · rename_i ci hci
      split at hok
      · exact absurd hok (by simp)
      · rename_i hco
        dsimp only at hok
        split at hok
        · exact absurd hok (by simp)
        · rename_i hlt
          simp only [Except.ok.injEq, Prod.mk.injEq] at hok
          exact ⟨existing, ci, hfind, hci, by simpa using hco, hlt,
            hok.2.symm.trans rfl, by rw [← hok.1, ← hok.2]⟩

/-! ### C1: attendance uniqueness and duplicate check-in -/

/-- Claim C1: check-in preserves the one-row-per-(employee, date) invariant,
and after a successful check-in a second check-in for the same (employee,
date) always fails with `alreadyCheckedIn` and leaves the store unchanged. -/
theorem checkIn_at_most_one_and_second_fails
    (records records' : List AttendanceRecord) (rec : AttendanceRecord)
    (userId today : String) (t t' : Time) (sch sch' : WorkSchedule)
    (photo photo' : String) (loc loc' : Location) (fid fid' : String)
    (hids : uniqueIds records) (hkey : uniquePerUserDate records)
    (hok : checkIn records userId today t sch photo loc fid = .ok (records', rec)) :
    uniquePerUserDate records' ∧
    checkIn records' userId today t' sch' photo' loc' fid' = .error .alreadyCheckedIn ∧
    checkInStore records' userId today t' sch' photo' loc' fid' = records' := by
  have hrecCi : rec.checkIn.isSome = true := by
    rcases checkIn_ok_cases _ _ _ _ _ _ _ _ _ _ hok with
      ⟨existing, _, _, hrec, _⟩ | ⟨_, hrec, _⟩ <;> rw [hrec] <;> rfl
  have hsecond :
      records'.find? (attKey userId today) = some rec := by
    rcases checkIn_ok_cases _ _ _ _ _ _ _ _ _ _ hok with
      ⟨existing, hfind, hci, hrec, hrs⟩ | ⟨hfind, hrec, hrs⟩
    · rw [hrs]
      refine find?_replaceFirst (fun r => r.id) hfind hids ?_
      have hq := List.find?_some hfind
      rw [hrec]
      exact hq
    · rw [hrs, find?_append_left_none hfind]
      refine List.find?_cons_of_pos _ ?_
      rw [hrec]
      simp [attKey, checkInFresh]
  have herr :
      checkIn records' userId today t' sch' photo' loc' fid' = .error .alreadyCheckedIn := by
    unfold checkIn
    rw [hsecond]
    simp [hrecCi]
  refine ⟨?_, herr, by simp [checkInStore, herr]⟩
  rcases checkIn_ok_cases _ _ _ _ _ _ _ _ _ _ hok with
    ⟨existing, hfind, hci, hrec, hrs⟩ | ⟨hfind, hrec, hrs⟩
  · rw [hrs]
    refine pairwise_replaceFirst (fun r => r.id) hids
      (List.mem_of_find?_eq_some hfind) ?_ ?_ hkey
    · intro a h
      rw [hrec]
      exact h
    · intro a h
      rw [hrec]
      exact h
  · rw [hrs]
    refine List.pairwise_append.mpr ⟨hkey, List.pairwise_singleton _ _, ?_⟩
    intro a ha b hb
    rw [List.mem_singleton] at hb
    subst hb
    intro hcol
    refine List.find?_eq_none.mp hfind a ha ?_
    have h1 : a.userId = userId := by rw [hcol.1, hrec]; rfl
    have h2 : a.date = today := by rw [hcol.2, hrec]; rfl
    simp [attKey, h1, h2]

/-- Witness for C1: a first check-in into an empty store, then a duplicate. -/
theorem checkIn_at_most_one_and_second_fails_witness :
    uniquePerUserDate [attW] ∧
    checkIn [attW] "emp-001" "2026-01-05" ⟨9, 0⟩ schW "p2" locW "att-2" = .error .alreadyCheckedIn ∧
    checkInStore [attW] "emp-001" "2026-01-05" ⟨9, 0⟩ schW "p2" locW "att-2" = [attW] :=
  checkIn_at_most_one_and_second_fails [] [attW] attW "emp-001" "2026-01-05"
    ⟨8, 0⟩ ⟨9, 0⟩ schW schW "p" "p2" locW locW "att-1" "att-2"
    List.Pairwise.nil List.Pairwise.nil rfl

/-! ### C2: lateness boundary -/

/-- The string order on zero-padded `"HH:MM"` values, i.e. the lexicographic
order on (hour, minute), agrees with minute-of-day order whenever the minute
fields are in range. -/
theorem Time.lexGt_iff {a b : Time} (ha : a.minute < 60) (hb : b.minute < 60) :
    Time.lexGt a b = true ↔ b.toMinutes < a.toMinutes := by
  simp only [Time.lexGt, Time.toMinutes, Bool.or_eq_true, Bool.and_eq_true,
    decide_eq_true_eq, beq_iff_eq]
  omega

/-- Claim C2: a check-in at exactly the start time of the schedule yields
status `present` (equality is not late); a check-in one minute or more after
the start time yields status `late`. -/
theorem checkIn_on_time_not_late
    (records records' : List AttendanceRecord) (rec : AttendanceRecord)
    (userId today : String) (t : Time) (sch : WorkSchedule)
    (photo : String) (loc : Location) (fid : String)
    (ht : t.minute < 60) (hs : sch.startTime.minute < 60)
    (hok : checkIn records userId today t sch photo loc fid = .ok (records', rec)) :
    (t.toMinutes = sch.startTime.toMinutes → rec.status = AttStatus.present) ∧
    (sch.startTime.toMinutes + 1 ≤ t.toMinutes → rec.status = AttStatus.late) := by
  have hstat : rec.status =
      if Time.lexGt t sch.startTime then AttStatus.late else AttStatus.present := by
    rcases checkIn_ok_cases _ _ _ _ _ _ _ _ _ _ hok with
      ⟨existing, -, -, hrec, -⟩ | ⟨-, hrec, -⟩ <;> rw [hrec] <;> rfl
  constructor
  · intro heq
    have hnot : ¬Time.lexGt t sch.startTime = true := by
      rw [Time.lexGt_iff ht hs]; omega
    rw [hstat, if_neg hnot]
  · intro hafter
    have hyes : Time.lexGt t sch.startTime = true := by
      rw [Time.lexGt_iff ht hs]; omega
    rw [hstat, if_pos hyes]

/-- Witness for C2: a check-in at exactly 08:00 against the 08:00 schedule. -/
theorem checkIn_on_time_not_late_witness :
    ((⟨8, 0⟩ : Time).toMinutes = schW.startTime.toMinutes → attW.status = AttStatus.present) ∧
    (schW.startTime.toMinutes + 1 ≤ (⟨8, 0⟩ : Time).toMinutes → attW.status = AttStatus.late) :=
  checkIn_on_time_not_late [] [attW] attW "emp-001" "2026-01-05" ⟨8, 0⟩ schW "p" locW "att-1"
    (by decide) (by decide) rfl

/-! ### C3, C4, C5: check-out arithmetic and the minimum-hours gate -/

/-- The attendance row written by a successful check-out at 16:00 on the
sample day. -/
def attWout : AttendanceRecord :=
  { attW with checkOut := some ⟨⟨16, 0⟩, "q", locW⟩, workHours := 8 }

theorem checkOut_minHours_error
    (records : List AttendanceRecord) (userId today : String) (t : Time)
    (sch : WorkSchedule) (photo : String) (loc : Location)
    (existing : AttendanceRecord) (ci : CheckEvent)
    (hfind : records.find? (attKey userId today) = some existing)
    (hci : existing.checkIn = some ci)
    (hco : existing.checkOut = none)
    (hlt : computedWorkHours ci.time t < sch.minWorkHours) :
    checkOut records userId today t sch photo loc =
      .error (.minimumHoursNotMet
        (remainingSplit sch.minWorkHours (computedWorkHours ci.time t)).1
        (remainingSplit sch.minWorkHours (computedWorkHours ci.time t)).2) := by
  simp only [checkOut, hfind, hci, hco, Option.isSome_none, Bool.false_eq_true,
    if_false]
  rw [if_pos hlt]

/-- Claim C3 counterexample: with the 8-hour Monday schedule, a check-in at
08:00 and a check-out attempt at 07:00 (negative minute difference), the
operation does not succeed with a stored 0: it is rejected by the
minimum-hours gate, which runs before the `max(0, workHours)` floor. -/
theorem checkOut_negative_rejected_cex :
    computedWorkHours ⟨8, 0⟩ ⟨7, 0⟩ < 0 ∧
    checkOut [attW] "emp-001" "2026-01-05" ⟨7, 0⟩ schW "p" locW =
      .error (.minimumHoursNotMet 9 0) := by
  constructor
  · norm_num [computedWorkHours, Time.toMinutes]
  · norm_num [checkOut, attKey, attW, schW, computedWorkHours, remainingSplit,
      remainingMinutes, Time.toMinutes]

/-- Claim C3 (amended): the workHours stored by a successful check-out equals
`max(0, elapsed minutes / 60)`, hence is nonnegative and monotone in the
elapsed minutes, and a negative difference that survives the gate is floored
to zero; however a check-out succeeds only when the computed (pre-floor)
workHours already reach the minimum of the schedule, so a negative difference
is rejected whenever the minimum is nonnegative (see the counterexample)
rather than stored as zero. -/
theorem checkOut_workHours_floor_monotone
    (records records' : List AttendanceRecord) (rec : AttendanceRecord)
    (userId today : String) (t : Time) (sch : WorkSchedule)
    (photo : String) (loc : Location)
    (existing : AttendanceRecord) (ci : CheckEvent)
    (hfind : records.find? (attKey userId today) = some existing)
    (hci : existing.checkIn = some ci)
    (hok : checkOut records userId today t sch photo loc = .ok (records', rec)) :
    rec.workHours = max 0 (computedWorkHours ci.time t) ∧
    0 ≤ rec.workHours ∧
    sch.minWorkHours ≤ computedWorkHours ci.time t ∧
    (computedWorkHours ci.time t < 0 → rec.workHours = 0) ∧
    (∀ d e : Int, d ≤ e → max 0 ((d : ℚ) / 60) ≤ max 0 ((e : ℚ) / 60)) := by
  obtain ⟨ex2, ci2, hfind2, hci2, hco2, hnlt, hrec, hrs⟩ :=
    checkOut_ok_cases _ _ _ _ _ _ _ _ _ hok
  rw [hfind2] at hfind
  injection hfind with hex
  subst hex
  rw [hci2] at hci
  injection hci with hcieq
  subst hcieq
  refine ⟨by rw [hrec]; rfl, ?_, not_lt.mp hnlt, ?_, ?_⟩
  · rw [hrec]
    exact le_max_left 0 _
  · intro hneg
    rw [hrec]
    show max 0 (computedWorkHours ci2.time t) = 0
    exact max_eq_left hneg.le
  · intro d e hde
    refine max_le_max le_rfl ?_
    refine (div_le_div_iff_of_pos_right (by norm_num)).mpr ?_
    exact_mod_cast hde

/-- Witness for C3 (amended) at a successful 08:00-16:00 check-out. -/
theorem checkOut_workHours_floor_monotone_witness :
    attWout.workHours = max 0 (computedWorkHours ⟨8, 0⟩ ⟨16, 0⟩) ∧
    0 ≤ attWout.workHours ∧
    schW.minWorkHours ≤ computedWorkHours ⟨8, 0⟩ ⟨16, 0⟩ ∧
    (computedWorkHours ⟨8, 0⟩ ⟨16, 0⟩ < 0 → attWout.workHours = 0) ∧
    (∀ d e : Int, d ≤ e → max 0 ((d : ℚ) / 60) ≤ max 0 ((e : ℚ) / 60)) :=
  checkOut_workHours_floor_monotone [attW] [attWout] attWout "emp-001" "2026-01-05"
    ⟨16, 0⟩ schW "q" locW attW ⟨⟨8, 0⟩, "p", locW⟩ rfl rfl
    (by norm_num [checkOut, attKey, attW, attWout, schW, checkOutUpdate,
      computedWorkHours, Time.toMinutes, replaceFirst])

/-- Claim C4: whenever the computed workHours fall below the minimum of the
schedule, check-out fails with the minimum-hours error and the stored
records are completely unchanged. -/
theorem checkOut_min_not_met_unchanged
    (records : List AttendanceRecord) (userId today : String) (t : Time)
    (sch : WorkSchedule) (photo : String) (loc : Location)
    (existing : AttendanceRecord) (ci : CheckEvent)
    (hfind : records.find? (attKey userId today) = some existing)
    (hci : existing.checkIn = some ci)
    (hco : existing.checkOut = none)
    (hlt : computedWorkHours ci.time t < sch.minWorkHours) :
    checkOut records userId today t sch photo loc =
      .error (.minimumHoursNotMet
        (remainingSplit sch.minWorkHours (computedWorkHours ci.time t)).1
        (remainingSplit sch.minWorkHours (computedWorkHours ci.time t)).2) ∧
    checkOutStore records userId today t sch photo loc = records := by
  have herr := checkOut_minHours_error records userId today t sch photo loc
    existing ci hfind hci hco hlt
  exact ⟨herr, by simp [checkOutStore, herr]⟩

/-- Witness for C4: the 15:00 check-out attempt of the spec scenario. -/
theorem checkOut_min_not_met_unchanged_witness :
    checkOut [attW] "emp-001" "2026-01-05" ⟨15, 0⟩ schW "p" locW =
      .error (.minimumHoursNotMet
        (remainingSplit schW.minWorkHours (computedWorkHours ⟨8, 0⟩ ⟨15, 0⟩)).1
        (remainingSplit schW.minWorkHours (computedWorkHours ⟨8, 0⟩ ⟨15, 0⟩)).2) ∧
    checkOutStore [attW] "emp-001" "2026-01-05" ⟨15, 0⟩ schW "p" locW = [attW] :=
  checkOut_min_not_met_unchanged [attW] "emp-001" "2026-01-05" ⟨15, 0⟩ schW "p" locW
    attW ⟨⟨8, 0⟩, "p", locW⟩ rfl rfl rfl
    (by norm_num [computedWorkHours, Time.toMinutes, schW])

/-- Claim C5: the minimum-hours failure carries the remaining deficit rounded
up to whole minutes and split into nonnegative hours and minutes (with the
1h 0m scenario of the spec established in the witness). -/
theorem checkOut_deficit_rounding
    (records : List AttendanceRecord) (userId today : String) (t : Time)
    (sch : WorkSchedule) (photo : String) (loc : Location)
    (existing : AttendanceRecord) (ci : CheckEvent)
    (hfind : records.find? (attKey userId today) = some existing)
    (hci : existing.checkIn = some ci)
    (hco : existing.checkOut = none)
    (hlt : computedWorkHours ci.time t < sch.minWorkHours) :
    ∃ h m : Int,
      checkOut records userId today t sch photo loc = .error (.minimumHoursNotMet h m) ∧
      h * 60 + m = remainingMinutes sch.minWorkHours (computedWorkHours ci.time t) ∧
      0 ≤ h ∧ 0 ≤ m ∧ m < 60 ∧
      remainingMinutes sch.minWorkHours (computedWorkHours ci.time t) =
        ⌈(sch.minWorkHours - computedWorkHours ci.time t) * 60⌉ := by
  have herr := checkOut_minHours_error records userId today t sch photo loc
    existing ci hfind hci hco hlt
  have hpos : 0 < remainingMinutes sch.minWorkHours (computedWorkHours ci.time t) := by
    rw [remainingMinutes]
    refine Int.ceil_pos.mpr ?_
    have : 0 < sch.minWorkHours - computedWorkHours ci.time t := by linarith
    positivity
  refine ⟨_, _, herr, ?_, ?_, ?_, ?_, rfl⟩
  · rw [remainingSplit, mul_comm]
    exact Int.ediv_add_emod _ 60
  · exact Int.ediv_nonneg hpos.le (by norm_num)
  · exact Int.emod_nonneg _ (by norm_num)
  · exact Int.emod_lt_of_pos _ (by norm_num)

/-- Witness for C5: the spec scenario, with the carried deficit evaluated to
exactly 1 hour 0 minutes. -/
theorem checkOut_deficit_rounding_witness :
    checkOut [attW] "emp-001" "2026-01-05" ⟨15, 0⟩ schW "p" locW =
      .error (.minimumHoursNotMet 1 0) ∧
    (∃ h m : Int,
      checkOut [attW] "emp-001" "2026-01-05" ⟨15, 0⟩ schW "p" locW =
        .error (.minimumHoursNotMet h m) ∧
      h * 60 + m = remainingMinutes schW.minWorkHours (computedWorkHours ⟨8, 0⟩ ⟨15, 0⟩) ∧
      0 ≤ h ∧ 0 ≤ m ∧ m < 60 ∧
      remainingMinutes schW.minWorkHours (computedWorkHours ⟨8, 0⟩ ⟨15, 0⟩) =
        ⌈(schW.minWorkHours - computedWorkHours ⟨8, 0⟩ ⟨15, 0⟩) * 60⌉) := by
  refine ⟨?_, checkOut_deficit_rounding [attW] "emp-001" "2026-01-05" ⟨15, 0⟩ schW
    "p" locW attW ⟨⟨8, 0⟩, "p", locW⟩ rfl rfl rfl
    (by norm_num [computedWorkHours, Time.toMinutes, schW])⟩
  norm_num [checkOut, attKey, attW, schW, computedWorkHours, remainingSplit,
    remainingMinutes, Time.toMinutes]

/-! ### C6: overtime minimum-hours resolution -/

/-- Claim C6 counterexample: with a schedule row present whose stored
minimum is 0 and a completed attendance of 5 hours (not below that row
minimum), startOvertime still fails with the minimum-hours error carrying the
default 8: JavaScript `schedule?.min_work_hours || 8` substitutes the default
for the falsy stored 0, not only when the lookup is unavailable. -/
theorem startOvertime_zero_min_default_cex :
    (some schMin0 ≠ (none : Option WorkSchedule)) ∧
    ¬attDone5.workHours < schMin0.minWorkHours ∧
    startOvertime [] (some attDone5) (some schMin0) "emp-001" "2026-01-05" ⟨17, 0⟩
      "maintenance" "ot-9" = .error (.minimumHoursNotMetOvertime 8) := by
  refine ⟨by simp, by norm_num [attDone5, attW, schMin0], ?_⟩
  norm_num +decide [startOvertime, resolvedMinWorkHours, attDone5, attW, schMin0]

/-- Claim C6 (amended): startOvertime resolves the threshold as
`schedule?.min_work_hours || 8`, substituting the default 8.0 when the
lookup is unavailable and also when the stored minimum is the falsy number 0;
given a reason and a completed attendance, it fails with the overtime
minimum-hours error if and only if workHours is below that resolved value. -/
theorem startOvertime_min_gate
    (overtimes : List OvertimeRecord) (att : AttendanceRecord)
    (schedule : Option WorkSchedule) (userId today : String) (t : Time)
    (reason fid : String)
    (hr : ¬reason = "")
    (hci : att.checkIn.isNone = false) (hco : att.checkOut.isNone = false) :
    ((∃ q, startOvertime overtimes (some att) schedule userId today t reason fid =
        .error (.minimumHoursNotMetOvertime q)) ↔
      att.workHours < resolvedMinWorkHours schedule) ∧
    (att.workHours < resolvedMinWorkHours schedule →
      startOvertime overtimes (some att) schedule userId today t reason fid =
        .error (.minimumHoursNotMetOvertime (resolvedMinWorkHours schedule))) := by
  have hrun : ∀ hlt : att.workHours < resolvedMinWorkHours schedule,
      startOvertime overtimes (some att) schedule userId today t reason fid =
        .error (.minimumHoursNotMetOvertime (resolvedMinWorkHours schedule)) := by
    intro hlt
    simp only [startOvertime, if_neg hr, hci, hco, Bool.false_eq_true, if_false,
      if_pos hlt]
  refine ⟨⟨?_, fun hlt => ⟨_, hrun hlt⟩⟩, hrun⟩
  rintro ⟨q, hq⟩
  by_contra hge
  simp only [startOvertime, if_neg hr, hci, hco, Bool.false_eq_true, if_false,
    if_neg hge] at hq
  cases hfo : overtimes.find? (otOpenKey userId today) <;> simp [hfo] at hq

/-- Witness for C6 (amended): 5 worked hours against the 8-hour schedule. -/
theorem startOvertime_min_gate_witness :
    ((∃ q, startOvertime [] (some attDone5) (some schW) "emp-001" "2026-01-05" ⟨17, 0⟩
        "maintenance" "ot-9" = .error (.minimumHoursNotMetOvertime q)) ↔
      attDone5.workHours < resolvedMinWorkHours (some schW)) ∧
    (attDone5.workHours < resolvedMinWorkHours (some schW) →
      startOvertime [] (some attDone5) (some schW) "emp-001" "2026-01-05" ⟨17, 0⟩
        "maintenance" "ot-9" =
          .error (.minimumHoursNotMetOvertime (resolvedMinWorkHours (some schW)))) :=
  startOvertime_min_gate [] attDone5 (some schW) "emp-001" "2026-01-05" ⟨17, 0⟩
    "maintenance" "ot-9" (by decide) rfl rfl

/-! ### C7: at most one open overtime -/

/-- The overtime row created by startOvertime (`data-store.ts` lines 367-377,
overtime route lines 167-173). -/
def startOvertimeFresh (userId today : String) (t : Time) (reason fid : String) :
    OvertimeRecord :=
  { id := fid
    userId := userId
    date := today
    startTime := t
    endTime := none
    duration := 0
    reason := reason
    status := OvertimeStatus.pending
    approvedBy := none }

/-- The sample overtime row created by a start at 17:00. -/
def otW : OvertimeRecord :=
  startOvertimeFresh "emp-001" "2026-01-05" ⟨17, 0⟩ "maintenance" "ot-1"

theorem startOvertime_ok_cases
    (overtimes overtimes' : List OvertimeRecord) (ot : OvertimeRecord)
    (attendance : Option AttendanceRecord) (schedule : Option WorkSchedule)
    (userId today : String) (t : Time) (reason fid : String)
    (hok : startOvertime overtimes attendance schedule userId today t reason fid =
      .ok (overtimes', ot)) :
    ¬reason = "" ∧
    (∃ att, attendance = some att ∧ att.checkIn.isNone = false ∧
      att.checkOut.isNone = false ∧ ¬att.workHours < resolvedMinWorkHours schedule) ∧
    overtimes.find? (otOpenKey userId today) = none ∧
    ot = startOvertimeFresh userId today t reason fid ∧
    overtimes' = overtimes ++ [ot] := by
  unfold startOvertime at hok
  split at hok
  · exact absurd hok (by simp)
  · rename_i hr
    split at hok
    · exact absurd hok (by simp)
    · rename_i att
      split at hok
      · exact absurd hok (by simp)
      · rename_i hci
        split at hok
        · exact absurd hok (by simp)
        · rename_i hco
          split at hok
          · exact absurd hok (by simp)
          · rename_i hmin
            split at hok
            · exact absurd hok (by simp)
            · rename_i hfo
              simp only [Except.ok.injEq, Prod.mk.injEq] at hok
              simp only [Bool.not_eq_true] at hci hco
              exact ⟨hr, ⟨att, rfl, hci, hco, hmin⟩,
                hfo, hok.2.symm.trans rfl, by rw [← hok.1, ← hok.2]⟩

/-- Claim C7: startOvertime preserves the at-most-one-open-overtime-per-day
invariant, and a second start without an intervening end fails with
`overtimeAlreadyOpen` and leaves the store unchanged. -/
theorem startOvertime_single_open
    (overtimes overtimes' : List OvertimeRecord) (ot : OvertimeRecord)
    (attendance : Option AttendanceRecord) (schedule : Option WorkSchedule)
    (userId today : String) (t t' : Time) (reason reason' fid fid' : String)
    (hmo : atMostOneOpen overtimes) (hr' : ¬reason' = "")
    (hok : startOvertime overtimes attendance schedule userId today t reason fid =
      .ok (overtimes', ot)) :
    atMostOneOpen overtimes' ∧
    startOvertime overtimes' attendance schedule userId today t' reason' fid' =
      .error .overtimeAlreadyOpen ∧
    startOvertimeStore overtimes' attendance schedule userId today t' reason' fid' =
      overtimes' := by
  obtain ⟨hr, ⟨att, hatt, hci, hco, hmin⟩, hfo, hot, hrs⟩ :=
    startOvertime_ok_cases _ _ _ _ _ _ _ _ _ _ hok
  have hfind2 : overtimes'.find? (otOpenKey userId today) = some ot := by
    rw [hrs, find?_append_left_none hfo]
    refine List.find?_cons_of_pos _ ?_
    rw [hot]
    simp [otOpenKey, startOvertimeFresh]
  have herr : startOvertime overtimes' attendance schedule userId today t' reason' fid' =
      .error .overtimeAlreadyOpen := by
    rw [hatt]
    simp only [startOvertime, if_neg hr', hci, hco, Bool.false_eq_true, if_false,
      if_neg hmin, hfind2]
  refine ⟨?_, herr, by simp [startOvertimeStore, herr]⟩
  rw [hrs]
  refine List.pairwise_append.mpr ⟨hmo, List.pairwise_singleton _ _, ?_⟩
  intro a ha b hb
  rw [List.mem_singleton] at hb
  subst hb
  intro hcol
  refine List.find?_eq_none.mp hfo a ha ?_
  have h1 : a.userId = userId := hcol.1.trans (by rw [hot]; rfl)
  have h2 : a.date = today := hcol.2.1.trans (by rw [hot]; rfl)
  simp [otOpenKey, h1, h2, hcol.2.2.1]

/-- Witness for C7: a first overtime start after the 8-hour day, then a
second attempt. -/
theorem startOvertime_single_open_witness :
    atMostOneOpen [otW] ∧
    startOvertime [otW] (some attDone8) (some schW) "emp-001" "2026-01-05" ⟨18, 0⟩
      "more" "ot-2" = .error .overtimeAlreadyOpen ∧
    startOvertimeStore [otW] (some attDone8) (some schW) "emp-001" "2026-01-05" ⟨18, 0⟩
      "more" "ot-2" = [otW] :=
  startOvertime_single_open [] [otW] otW (some attDone8) (some schW) "emp-001"
    "2026-01-05" ⟨17, 0⟩ ⟨18, 0⟩ "maintenance" "more" "ot-1" "ot-2"
    List.Pairwise.nil (by decide)
    (by norm_num +decide [startOvertime, resolvedMinWorkHours, attDone8, attW, schW,
      otW, startOvertimeFresh])

/-! ### C8: the reject decision and its frame -/

/-- Claim C8: decideOvertime with approve=false sets status `rejected`,
records the acting admin as approver, and leaves startTime, endTime and
duration unchanged; nothing in the operation depends on whether the end time
is set, so it succeeds the same way in both cases (the statement carries no
hypothesis on `ot.endTime`, and the witness runs it on an open record). -/
theorem approveOvertime_reject_frame
    (overtimes : List OvertimeRecord) (oid adminId : String) (ot : OvertimeRecord)
    (hfind : overtimes.find? (fun o => o.id == oid) = some ot) :
    ∃ rs' rec, approveOvertime overtimes oid adminId false = .ok (rs', rec) ∧
      rec.status = OvertimeStatus.rejected ∧
      rec.approvedBy = some adminId ∧
      rec.startTime = ot.startTime ∧
      rec.endTime = ot.endTime ∧
      rec.duration = ot.duration := by
  have hrun : approveOvertime overtimes oid adminId false =
      .ok (replaceFirst (fun o => o.id == oid)
            { ot with status := OvertimeStatus.rejected, approvedBy := some adminId }
            overtimes,
          { ot with status := OvertimeStatus.rejected, approvedBy := some adminId }) := by
    simp only [approveOvertime, hfind, Bool.false_eq_true, if_false]
  exact ⟨_, _, hrun, rfl, rfl, rfl, rfl, rfl⟩

/-- Witness for C8: rejecting the still-open sample overtime record. -/
theorem approveOvertime_reject_frame_witness :
    ∃ rs' rec, approveOvertime [otW] "ot-1" "admin-001" false = .ok (rs', rec) ∧
      rec.status = OvertimeStatus.rejected ∧
      rec.approvedBy = some "admin-001" ∧
      rec.startTime = otW.startTime ∧
      rec.endTime = otW.endTime ∧
      rec.duration = otW.duration :=
  approveOvertime_reject_frame [otW] "ot-1" "admin-001" otW rfl

/-! ### C9: status transitions are not guarded -/

/-- Claim C9 counterexample: a decide call on an already approved record
changes its status again, to rejected: approved is not terminal. -/
theorem approveOvertime_overwrites_cex :
    otApproved.status = OvertimeStatus.approved ∧
    approveOvertime [otApproved] "ot-1" "admin-001" false =
      .ok ([{ otApproved with status := OvertimeStatus.rejected }],
           { otApproved with status := OvertimeStatus.rejected }) := by
  refine ⟨rfl, ?_⟩
  simp [approveOvertime, replaceFirst, otApproved]

/-- Claim C9 (amended): decideOvertime always sets the status of the target
record to the requested decision, regardless of its current status (so a
repeated decision overwrites approved or rejected), while endOvertime never
changes the status of any stored record. -/
theorem overtime_status_transitions
    (overtimes : List OvertimeRecord) (hids : uniqueOtIds overtimes) :
    (∀ oid adminId approved rs' rec,
      approveOvertime overtimes oid adminId approved = .ok (rs', rec) →
      rec.status = (if approved then OvertimeStatus.approved else OvertimeStatus.rejected)) ∧
    (∀ userId today endT rs' rec,
      endOvertime overtimes userId today endT = .ok (rs', rec) →
      rs'.map (fun o => o.status) = overtimes.map (fun o => o.status)) := by
  constructor
  · intro oid adminId approved rs' rec hok
    unfold approveOvertime at hok
    split at hok
    · exact absurd hok (by simp)
    · simp only [Except.ok.injEq, Prod.mk.injEq] at hok
      rw [← hok.2]
  · intro userId today endT rs' rec hok
    unfold endOvertime at hok
    split at hok
    · exact absurd hok (by simp)
    · rename_i ot hfind
      simp only [Except.ok.injEq, Prod.mk.injEq] at hok
      rw [← hok.1]
      refine map_replaceFirst (fun o => o.status) (fun o => o.id) hids
        (List.mem_of_find?_eq_some hfind) ?_
      rfl

/-- Witness for C9 (amended): re-deciding the already approved record. -/
theorem overtime_status_transitions_witness :
    ({ otApproved with status := OvertimeStatus.rejected } : OvertimeRecord).status =
      (if false then OvertimeStatus.approved else OvertimeStatus.rejected) :=
  (overtime_status_transitions [otApproved] (by simp [uniqueOtIds])).1
    "ot-1" "admin-001" false [{ otApproved with status := OvertimeStatus.rejected }]
    { otApproved with status := OvertimeStatus.rejected }
    (by simp [approveOvertime, replaceFirst, otApproved])

/-! ### C10: monthly statistics -/

/-- Sample attendance rows for the statistics scenario: two rows of the
target employee in the month with index 1 of 2026, one row of another
employee in that month, one row of the target employee in another month. -/
def stR1 : AttendanceRecord :=
  { attW with id := "a1", date := "2026-02-03", status := .present, workHours := 8 }

/-- See `stR1`. -/
def stR2 : AttendanceRecord :=
  { attW with id := "a2", date := "2026-02-04", status := .late, workHours := 15/2 }

/-- See `stR1`. -/
def stR3 : AttendanceRecord :=
  { attW with id := "a3", userId := "emp-002", date := "2026-02-05", workHours := 3 }

/-- See `stR1`. -/
def stR4 : AttendanceRecord :=
  { attW with id := "a4", date := "2026-03-01", workHours := 4 }

/-- Claim C10: getAttendanceStats filters to the given employee and the given
(zero-based, as `getMonth()` yields) month and year, counts the filtered rows
per status with missing statuses counted zero, sums their workHours and
reports the filtered count as total; when the filter yields exactly one
`present` row with 8 hours and one `late` row with 7.5 hours, the result is
{present 1, late 1, absent 0, totalWorkHours 15.5, total 2}. -/
theorem getAttendanceStats_counts
    (records : List AttendanceRecord) (uid : String) (m y : Nat)
    (r1 r2 : AttendanceRecord)
    (hf : statsFiltered records (some uid) m y = [r1, r2])
    (h1s : r1.status = AttStatus.present) (h1w : r1.workHours = 8)
    (h2s : r2.status = AttStatus.late) (h2w : r2.workHours = 15/2) :
    getAttendanceStats records (some uid) m y =
      { present := 1, late := 1, absent := 0, totalWorkHours := 31/2, total := 2 } := by
  simp only [getAttendanceStats, hf]
  norm_num +decide [List.filter_cons, List.filter_nil, h1s, h2s, h1w, h2w]

/-- Witness for C10: the scenario over four stored rows, two of which match
employee emp-001 and month index 1 of 2026. -/
theorem getAttendanceStats_counts_witness :
    getAttendanceStats [stR1, stR3, stR2, stR4] (some "emp-001") 1 2026 =
      { present := 1, late := 1, absent := 0, totalWorkHours := 31/2, total := 2 } :=
  getAttendanceStats_counts [stR1, stR3, stR2, stR4] "emp-001" 1 2026 stR1 stR2
    rfl rfl rfl rfl rfl

end Presensi
